import Mathlib

/-!
Verification development for the Munbyn RW402B CUPS raster filter
(`rastertorw402b.c`).  The C program is shallowly embedded below:

* pixel buffers are `List Nat` (bytes) or `List Int` (the signed
  intensity field used during error diffusion);
* the flat C arrays indexed by `y * width + x` become lists indexed the
  same way, with `List.getD _ _ 0` for reads and `List.set` for writes;
* C truncating integer division (`a / b` on `int`) is `Int.tdiv`;
* side effects of `main` / `process_raster_page` (stderr diagnostics,
  `free`, the byte stream written to stdout) are reified as a list of
  events, and the outcomes of `malloc` / `open` / `cupsRasterOpen` /
  `cupsRasterReadPixels` become explicit booleans of the page record.
-/

namespace RW402B

/-! ### Error diffusion (`error_diffusion`, rastertorw402b.c:300-322) -/

/-- `g[i] += v` on the flat intensity field (C `input_data[...] += ...`). -/
def addAt (g : List Int) (i : Nat) (v : Int) : List Int :=
  g.set i (g.getD i 0 + v)

/-- Body of the two nested loops of C `error_diffusion` for the pixel with
flat index `i = y * W + x`: quantize the pixel and distribute the
truncated error fractions to the four Floyd-Steinberg neighbours that are
in bounds.  The C guard `x - 1 >= 0` becomes `1 ≤ x`. -/
def diffStep (W H : Nat) (g : List Int) (i : Nat) : List Int :=
  let x := i % W
  let y := i / W
  let old := g.getD i 0
  let q : Int := if old < 128 then 0 else 255
  let g1 := g.set i q
  let err := old - q
  let g2 := if x + 1 < W then addAt g1 (i + 1) (Int.tdiv (err * 7) 16) else g1
  let g3 := if 1 ≤ x ∧ y + 1 < H then addAt g2 (i + W - 1) (Int.tdiv (err * 3) 16) else g2
  let g4 := if y + 1 < H then addAt g3 (i + W) (Int.tdiv (err * 5) 16) else g3
  if x + 1 < W ∧ y + 1 < H then addAt g4 (i + W + 1) (Int.tdiv (err * 1) 16) else g4

/-- C `error_diffusion`: row-major traversal (`y` outer, `x` inner) of all
`W * H` pixels, i.e. flat indices `0, 1, ..., W*H - 1` in order. -/
def error_diffusion (W H : Nat) (g : List Int) : List Int :=
  (List.range (W * H)).foldl (diffStep W H) g

/-! ### Monochrome packing (`convert_gray_to_mono`, rastertorw402b.c:266-297) -/

/-- Clear bit `k` of byte `b` (C `b &= ~(1 << k)` on an `unsigned char`,
with `k < 8` and `b < 256` at every use site). -/
def clearBit8 (b : Nat) (k : Nat) : Nat :=
  b &&& (255 - 2 ^ k)

/-- Byte index of pixel with flat index `i`:
C `y * ((width + 7) / 8) + x / 8`. -/
def byteIdx (W : Nat) (i : Nat) : Nat :=
  (i / W) * ((W + 7) / 8) + (i % W) / 8

/-- Bit position of pixel with flat index `i`: C `7 - (x % 8)`. -/
def bitIdx (W : Nat) (i : Nat) : Nat :=
  7 - (i % W) % 8

/-- Body of the packing loops of C `convert_gray_to_mono`: if the
quantized value is `< 128`, clear that pixel's bit in the mono buffer. -/
def packStep (W : Nat) (q : List Int) (m : List Nat) (i : Nat) : List Nat :=
  if q.getD i 0 < 128 then
    m.set (byteIdx W i) (clearBit8 (m.getD (byteIdx W i) 0) (bitIdx W i))
  else m

/-- The `memset(mono_data, 0xFF, ...)` plus the clearing loops of C
`convert_gray_to_mono`, applied to an already quantized field `q`. -/
def packMono (W H : Nat) (q : List Int) : List Nat :=
  (List.range (W * H)).foldl (packStep W q) (List.replicate (((W + 7) / 8) * H) 255)

/-- C `convert_gray_to_mono` (success path of its internal allocation):
copy the gray bytes into a signed field, run `error_diffusion`, then pack.
`print_mode` is a parameter of the C function and is never used by it. -/
def convert_gray_to_mono (W H : Nat) (gray : List Nat) (print_mode : Int) : List Nat :=
  packMono W H (error_diffusion W H (gray.map Int.ofNat))

/-! ### Geometric transforms (`apply_image_manipulations`, rastertorw402b.c:233-263) -/

/-- The three-assignment swap of C `apply_image_manipulations`'s mirror
loop body, as an operation on the flat buffer. -/
def swapIdx (bm : List Nat) (i j : Nat) : List Nat :=
  let t := bm.getD i 0
  (bm.set i (bm.getD j 0)).set j t

/-- Inner mirror loop for row `y`: swap `bm[y*W + x]` with
`bm[y*W + (W - 1 - x)]` for `x = 0, ..., W/2 - 1`. -/
def mirrorRowFold (W y : Nat) (bm : List Nat) : List Nat :=
  (List.range (W / 2)).foldl (fun b x => swapIdx b (y * W + x) (y * W + (W - 1 - x))) bm

/-- The mirror transform of C `apply_image_manipulations`: the row loop
around `mirrorRowFold`. -/
def mirror (W H : Nat) (bm : List Nat) : List Nat :=
  (List.range H).foldl (fun b y => mirrorRowFold W y b) bm

/-! ### Job configuration (`print_job_config_t`, rastertorw402b.c:38-57) -/

/-- The C `print_job_config_t` record; all numeric fields are C `int`. -/
structure Config where
  job_id : Int
  user : String
  title : String
  copies : Int
  speed : Int
  mediaType : Int
  mirrorImage : Int
  negativeImage : Int
  rotate : Int
  darkness : Int
  gap_height : Int
  gap_offset : Int
  horizontal_offset : Int
  vertical_offset : Int
  print_mode : Int
  page_width_mm : Int
  page_height_mm : Int
  deriving DecidableEq

/-- The configuration as `main` builds it before option parsing
(rastertorw402b.c:76-87): zero-initialized, then
speed=4, darkness=12, mediaType=1, gap_height=3. -/
def initialConfig (job_id copies : Int) (user title : String) : Config :=
  { job_id := job_id, user := user, title := title, copies := copies,
    speed := 4, mediaType := 1, mirrorImage := 0, negativeImage := 0,
    rotate := 0, darkness := 12, gap_height := 3, gap_offset := 0,
    horizontal_offset := 0, vertical_offset := 0, print_mode := 0,
    page_width_mm := 0, page_height_mm := 0 }

/-- C `apply_image_manipulations`: negate (if `negativeImage`), then
mirror (if `mirrorImage`); the `rotate == 2` case is an empty placeholder
in the C source and does nothing. -/
def apply_image_manipulations (W H : Nat) (cfg : Config) (bm : List Nat) : List Nat :=
  let b1 := if cfg.negativeImage ≠ 0 then bm.map (fun v => 255 - v) else bm
  if cfg.mirrorImage ≠ 0 then mirror W H b1 else b1

/-! ### Command emission (`send_printer_commands`, rastertorw402b.c:325-341) -/

/-- The bytes of an ASCII string, as written by `printf`. -/
def bytesOfString (s : String) : List Nat :=
  s.data.map Char.toNat

/-- C `send_printer_commands`: the full byte stream written to stdout for
one page — seven CRLF-terminated header commands, the `BITMAP` command
with the raw packed bytes appended directly behind the trailing comma
(`write(STDOUT_FILENO, mono_data, width_bytes * height_pixels)`), then a
CRLF and the `PRINT` command. -/
def send_printer_commands (mono : List Nat) (width_bytes height_pixels : Nat)
    (cfg : Config) : List Nat :=
  bytesOfString ("SIZE " ++ toString cfg.page_width_mm ++ " mm," ++
      toString cfg.page_height_mm ++ " mm\r\n" ++
    "GAP " ++ toString cfg.gap_height ++ " mm," ++ toString cfg.gap_offset ++ " mm\r\n" ++
    "DIRECTION 0,0\r\n" ++
    "REFERENCE " ++ toString cfg.horizontal_offset ++ "," ++
      toString cfg.vertical_offset ++ "\r\n" ++
    "DENSITY " ++ toString cfg.darkness ++ "\r\n" ++
    "SPEED " ++ toString cfg.speed ++ "\r\n" ++
    "CLS\r\n" ++
    "BITMAP 0,0," ++ toString width_bytes ++ "," ++ toString height_pixels ++ ",1,")
  ++ mono.take (width_bytes * height_pixels)
  ++ bytesOfString ("\r\nPRINT 1," ++ toString cfg.copies ++ "\r\n")

/-! ### Page processing (`process_raster_page`, rastertorw402b.c:138-182) -/

/-- One page record of the raster stream, together with the outcomes of
the fallible environment calls made while processing it: the two
`malloc`s of `process_raster_page`, the `malloc` inside
`convert_gray_to_mono` (the intensity field), and whether
`cupsRasterReadPixels` read the full page.  `junk` is the content the
uninitialized monochrome `malloc` block happens to hold. -/
structure PageRec where
  cupsWidth : Nat
  cupsHeight : Nat
  cupsBytesPerLine : Nat
  rasterAllocOk : Bool
  pixelsReadOk : Bool
  monoAllocOk : Bool
  fieldAllocOk : Bool
  pixels : List Nat
  junk : List Nat
  deriving DecidableEq

/-- Observable events of the filter run: diagnostics written to stderr,
buffer releases, and the byte stream emitted to stdout for a page. -/
inductive Ev where
  | errMsg (s : String)
  | emit (bytes : List Nat)
  | freeRaster
  | freeMono
  deriving DecidableEq

/-- The stdout bytes produced for one successfully read page: transforms,
quantization/packing (or the uninitialized buffer contents when the
intensity-field allocation inside `convert_gray_to_mono` failed — the C
function returns silently in that case), then `send_printer_commands`. -/
def page_output (cfg : Config) (p : PageRec) : List Nat :=
  let mono :=
    if p.fieldAllocOk then
      convert_gray_to_mono p.cupsWidth p.cupsHeight
        (apply_image_manipulations p.cupsWidth p.cupsHeight cfg p.pixels) cfg.print_mode
    else p.junk
  send_printer_commands mono ((p.cupsWidth + 7) / 8) p.cupsHeight cfg

/-- C `process_raster_page`: the header loop.  Degenerate headers are
skipped (`continue`); a failed raster `malloc` reports and returns; a
short `cupsRasterReadPixels` frees the buffer, reports and returns; a
failed mono `malloc` reports, frees and returns; otherwise the page is
converted, emitted, both buffers are freed and the loop continues. -/
def process_raster_page (cfg : Config) : List PageRec → List Ev
  | [] => []
  | p :: rest =>
    if p.cupsWidth = 0 ∨ p.cupsHeight = 0 ∨ p.cupsBytesPerLine = 0 then
      process_raster_page cfg rest
    else if p.rasterAllocOk = false then
      [Ev.errMsg "ERROR: Unable to allocate memory for raster page."]
    else if p.pixelsReadOk = false then
      [Ev.freeRaster, Ev.errMsg "ERROR: Failed to read raster pixels."]
    else if p.monoAllocOk = false then
      [Ev.errMsg "ERROR: Unable to allocate memory for monochrome buffer.", Ev.freeRaster]
    else
      Ev.emit (page_output cfg p) :: Ev.freeRaster :: Ev.freeMono ::
        process_raster_page cfg rest

/-! ### `main` (rastertorw402b.c:68-135) -/

/-- C `main`, with the environment reified: `argc`, whether `open` of the
optional input file succeeds, and whether `cupsRasterOpen` succeeds.
Returns the process exit code and the event trace.  Note the C source
falls through to `return 0` after reporting a failed `cupsRasterOpen`. -/
def main_model (argc : Nat) (open_ok raster_ok : Bool) (cfg : Config)
    (pages : List PageRec) : Nat × List Ev :=
  if argc < 6 ∨ 7 < argc then
    (1, [Ev.errMsg "ERROR: rastertorw402b job-id user title copies options [file]"])
  else if argc = 7 ∧ open_ok = false then
    (1, [Ev.errMsg "ERROR: Unable to open input file"])
  else if raster_ok then
    (0, process_raster_page cfg pages)
  else
    (0, [Ev.errMsg "ERROR: Could not open raster stream."])

/-! ### PageSize parsing (`set_pstops_options`, rastertorw402b.c:214-229)

The C code matches `strncmp(val, "Custom", 6) == 0` and then runs
`sscanf(val, "Custom.%dx%d", &w, &h)` (return value ignored), or else
`sscanf(val, "w%dh%d", &w, &h) == 2`.  `sscanf` stores each `%d`
conversion as soon as it matches, so a partially matching input can
assign `page_width_mm` even when the overall scan fails.  The models
below make those partial assignments explicit. -/

/-- C's `isspace` in the C locale: space, `\t`, `\n`, `\v` (0x0B),
`\f` (0x0C), `\r` — the characters a `%d` conversion skips. -/
def isSpaceC (c : Char) : Bool :=
  c == ' ' || c == '\t' || c == '\n' || c == '\x0b' || c == '\x0c' || c == '\r'

/-- Leading-whitespace skip performed by a `%d` conversion (`isspace`). -/
def dropSpaces : List Char → List Char
  | c :: cs => if isSpaceC c then dropSpaces cs else c :: cs
  | [] => []

/-- Accumulate a decimal digit run (the digits already matched by `%d`). -/
def scanDigits : List Char → Int → Int × List Char
  | c :: cs, acc =>
    if c.isDigit then scanDigits cs (acc * 10 + Int.ofNat (c.toNat - 48))
    else (acc, c :: cs)
  | [], acc => (acc, [])

/-- One `%d` conversion of `sscanf`: skip whitespace, optional sign, then
at least one digit; `none` when no digit follows (matching failure). -/
def scanInt (cs : List Char) : Option (Int × List Char) :=
  match dropSpaces cs with
  | '-' :: rest =>
    match rest with
    | c :: _ => if c.isDigit then
        some ((scanDigits rest 0).1 * (-1), (scanDigits rest 0).2)
      else none
    | [] => none
  | '+' :: rest =>
    match rest with
    | c :: _ => if c.isDigit then some (scanDigits rest 0) else none
    | [] => none
  | c :: rest => if c.isDigit then some (scanDigits (c :: rest) 0) else none
  | [] => none

/-- Ordinary (non-whitespace) format characters of `sscanf`: each must
match the next input character exactly. -/
def matchLit : List Char → List Char → Option (List Char)
  | [], cs => some cs
  | l :: ls, c :: cs => if c = l then matchLit ls cs else none
  | _ :: _, [] => none

/-- `sscanf(val, "Custom.%dx%d", &w, &h)`: which of the two `%d` fields
were assigned (assignments happen even when a later directive fails). -/
def scanCustomFields (cs : List Char) : Option Int × Option Int :=
  match matchLit "Custom.".data cs with
  | none => (none, none)
  | some r1 =>
    match scanInt r1 with
    | none => (none, none)
    | some (w, r2) =>
      match matchLit "x".data r2 with
      | none => (some w, none)
      | some r3 =>
        match scanInt r3 with
        | none => (some w, none)
        | some (h, _) => (some w, some h)

/-- `sscanf(val, "w%dh%d", &w, &h)`: which fields were assigned.  The
scan returned 2 exactly when both components are `some`. -/
def scanWHFields (cs : List Char) : Option Int × Option Int :=
  match matchLit "w".data cs with
  | none => (none, none)
  | some r1 =>
    match scanInt r1 with
    | none => (none, none)
    | some (w, r2) =>
      match matchLit "h".data r2 with
      | none => (some w, none)
      | some r3 =>
        match scanInt r3 with
        | none => (some w, none)
        | some (h, _) => (some w, some h)

/-- `strncmp(val, "Custom", 6) == 0`. -/
def startsWithCustom (cs : List Char) : Bool :=
  (matchLit "Custom".data cs).isSome

/-- The points-to-millimeters conversion `(int)(n / 2.835)`.  The C code
divides by the `double` literal `2.835` and truncates toward zero; this
is modelled as the exact rational division `n * 1000 / 2835`, truncated
toward zero (`Int.tdiv`), which agrees with the double computation on all
realistic page dimensions. -/
def pts_to_mm (n : Int) : Int :=
  Int.tdiv (n * 1000) 2835

/-- The PageSize block of C `set_pstops_options` (rastertorw402b.c:214-229),
starting from current field values `w0`, `h0` (both 0 by default): the
`Custom` branch converts unconditionally whatever the scan left in the
fields; the `w...h...` branch converts only when the scan returned 2,
but a partial assignment of `page_width_mm` persists either way. -/
def parsePageSize (cs : List Char) (w0 h0 : Int) : Int × Int :=
  if startsWithCustom cs then
    let f := scanCustomFields cs
    (pts_to_mm (f.1.getD w0), pts_to_mm (f.2.getD h0))
  else
    let f := scanWHFields cs
    if f.1.isSome ∧ f.2.isSome then
      (pts_to_mm (f.1.getD 0), pts_to_mm (f.2.getD 0))
    else
      (f.1.getD w0, f.2.getD h0)

end RW402B

namespace RW402B

/-! ### List access helper lemmas -/

theorem getD_set_of_ne {α : Type} (l : List α) (i j : Nat) (a d : α) (h : i ≠ j) :
    (l.set i a).getD j d = l.getD j d := by
  simp [List.getD, List.getElem?_set_ne h]

theorem getD_set_of_lt {α : Type} (l : List α) (i : Nat) (a d : α) (h : i < l.length) :
    (l.set i a).getD i d = a := by
  simp [List.getD, List.getElem?_set_self, h]

theorem getD_replicate_of_lt {α : Type} (n i : Nat) (v d : α) (h : i < n) :
    (List.replicate n v).getD i d = v := by
  simp [List.getD, List.getElem?_replicate, h]

/-! ### C2: the error diffuser leaves only 0 and 255 -/

theorem addAt_length (g : List Int) (i : Nat) (v : Int) :
    (addAt g i v).length = g.length := by
  simp [addAt]

theorem addAt_getD_ne (g : List Int) (k j : Nat) (v : Int) (h : k ≠ j) :
    (addAt g k v).getD j 0 = g.getD j 0 := by
  unfold addAt
  exact getD_set_of_ne _ _ _ _ _ h

theorem ite_addAt_getD (c : Prop) [Decidable c] (g : List Int) (k j : Nat) (v : Int)
    (h : c → k ≠ j) : (if c then addAt g k v else g).getD j 0 = g.getD j 0 := by
  split
  case isTrue hc => exact addAt_getD_ne _ _ _ _ (h hc)
  case isFalse hc => rfl

theorem ite_addAt_length (c : Prop) [Decidable c] (g : List Int) (k : Nat) (v : Int) :
    (if c then addAt g k v else g).length = g.length := by
  split <;> simp [addAt]

theorem diffStep_length (W H : Nat) (g : List Int) (i : Nat) :
    (diffStep W H g i).length = g.length := by
  unfold diffStep
  dsimp only
  rw [ite_addAt_length, ite_addAt_length, ite_addAt_length, ite_addAt_length,
    List.length_set]

theorem diffStep_getD_lt (W H : Nat) (g : List Int) (i j : Nat)
    (hW : 0 < W) (hj : j < i) :
    (diffStep W H g i).getD j 0 = g.getD j 0 := by
  have hx : i % W < W := Nat.mod_lt _ hW
  unfold diffStep
  dsimp only
  rw [ite_addAt_getD _ _ _ _ _ (fun _ => by omega),
    ite_addAt_getD _ _ _ _ _ (fun _ => by omega),
    ite_addAt_getD _ _ _ _ _ (fun hc => by omega),
    ite_addAt_getD _ _ _ _ _ (fun _ => by omega),
    getD_set_of_ne _ _ _ _ _ (by omega)]

theorem diffStep_getD_self (W H : Nat) (g : List Int) (i : Nat)
    (hW : 0 < W) (hi : i < g.length) :
    (diffStep W H g i).getD i 0 = if g.getD i 0 < 128 then 0 else 255 := by
  have hx : i % W < W := Nat.mod_lt _ hW
  unfold diffStep
  dsimp only
  rw [ite_addAt_getD _ _ _ _ _ (fun _ => by omega),
    ite_addAt_getD _ _ _ _ _ (fun _ => by omega),
    ite_addAt_getD _ _ _ _ _ (fun hc => by omega),
    ite_addAt_getD _ _ _ _ _ (fun _ => by omega),
    getD_set_of_lt _ _ _ _ hi]

theorem error_diffusion_prefix (W H : Nat) (g : List Int) (hW : 0 < W) :
    ∀ k, (((List.range k).foldl (diffStep W H) g).length = g.length) ∧
      (∀ j, j < k → j < g.length →
        ((List.range k).foldl (diffStep W H) g).getD j 0 = 0 ∨
        ((List.range k).foldl (diffStep W H) g).getD j 0 = 255) := by
  intro k
  induction k with
  | zero => exact ⟨rfl, fun j hj _ => absurd hj (Nat.not_lt_zero j)⟩
  | succ k ih =>
    have hr : List.range (k + 1) = List.range k ++ [k] := by
      simp [List.range_succ]
    rw [hr, List.foldl_append]
    refine ⟨by rw [List.foldl_cons, List.foldl_nil, diffStep_length, ih.1], ?_⟩
    intro j hj hjg
    rw [List.foldl_cons, List.foldl_nil]
    rcases Nat.lt_or_ge j k with hlt | hge
    · rw [diffStep_getD_lt _ _ _ _ _ hW hlt]
      exact ih.2 j hlt hjg
    · have hjk : j = k := by omega
      subst hjk
      rw [diffStep_getD_self _ _ _ _ hW (by rw [ih.1]; exact hjg)]
      split
      · exact Or.inl rfl
      · exact Or.inr rfl

/-- C2: for every intensity field of positive width and height, the error
diffuser preserves the field's size and leaves every final value exactly
0 or 255 (each pixel is quantized in row-major order with the truncated
Floyd-Steinberg error fractions pushed only to later, in-bounds pixels,
as embedded in `diffStep`). -/
theorem C2_error_diffusion_bitonal (W H : Nat) (g : List Int)
    (hW : 0 < W) (_hH : 0 < H) (hg : g.length = W * H) :
    (error_diffusion W H g).length = W * H ∧
    ∀ i, i < W * H →
      (error_diffusion W H g).getD i 0 = 0 ∨ (error_diffusion W H g).getD i 0 = 255 := by
  have h := error_diffusion_prefix W H g hW (W * H)
  exact ⟨by rw [error_diffusion, h.1, hg], fun i hi => h.2 i hi (by omega)⟩

/-- Witness for C2 at a concrete 2x2 field. -/
theorem C2_witness :
    0 < 2 ∧ ((error_diffusion 2 2 [100, 30, 200, 7]).getD 0 0 = 0 ∨
      (error_diffusion 2 2 [100, 30, 200, 7]).getD 0 0 = 255) :=
  ⟨by decide,
    (C2_error_diffusion_bitonal 2 2 [100, 30, 200, 7] (by decide) (by decide)
      (by decide)).2 0 (by decide)⟩

end RW402B

namespace RW402B

/-! ### C3: monochrome packing -/

theorem bitIdx_lt (W i : Nat) : bitIdx W i < 8 := by
  unfold bitIdx
  omega

theorem clearBit8_testBit (b k j : Nat) (hk : k < 8) (hj : j < 8) :
    (clearBit8 b k).testBit j = (b.testBit j && decide (j ≠ k)) := by
  have hmask : ∀ k2 < 8, ∀ j2 < 8, (255 - 2 ^ k2).testBit j2 = decide (j2 ≠ k2) := by decide
  rw [clearBit8, Nat.testBit_and, hmask k hk j hj]

theorem packStep_length (W : Nat) (q : List Int) (m : List Nat) (i : Nat) :
    (packStep W q m i).length = m.length := by
  unfold packStep
  split <;> simp

theorem pack_fold_length (W : Nat) (q : List Int) :
    ∀ (l : List Nat) (m : List Nat), (l.foldl (packStep W q) m).length = m.length := by
  intro l
  induction l with
  | nil => intro m; rfl
  | cons p l ih => intro m; rw [List.foldl_cons, ih, packStep_length]

theorem pack_fold_testBit (W : Nat) (q : List Int) :
    ∀ (l : List Nat) (m : List Nat) (n j : Nat), j < 8 →
      ((l.foldl (packStep W q) m).getD n 0).testBit j =
      ((m.getD n 0).testBit j &&
        !(l.any (fun i => decide (q.getD i 0 < 128) &&
          (byteIdx W i == n) && (bitIdx W i == j)))) := by
  intro l
  induction l with
  | nil => intro m n j _; simp
  | cons p l ih =>
    intro m n j hj
    rw [List.foldl_cons, ih _ n j hj]
    simp only [List.any_cons]
    by_cases hq : q.getD p 0 < 128
    · by_cases hbn : byteIdx W p = n
      · rcases Nat.lt_or_ge n m.length with hn | hn
        · have hset : (packStep W q m p).getD n 0 =
              clearBit8 (m.getD n 0) (bitIdx W p) := by
            rw [packStep, if_pos hq, hbn, getD_set_of_lt _ _ _ _ hn]
          rw [hset, clearBit8_testBit _ _ _ (bitIdx_lt W p) hj]
          by_cases hbj : bitIdx W p = j
          · have hfp : (decide (q.getD p 0 < 128) &&
                (byteIdx W p == n) && (bitIdx W p == j)) = true := by
              rw [decide_eq_true hq, hbn, hbj]
              simp
            rw [hfp, Bool.true_or]
            have hd : decide (j ≠ bitIdx W p) = false := by
              rw [hbj]
              simp
            rw [hd, Bool.and_false, Bool.false_and, Bool.not_true, Bool.and_false]
          · have hfp : (decide (q.getD p 0 < 128) &&
                (byteIdx W p == n) && (bitIdx W p == j)) = false := by
              have hb : (bitIdx W p == j) = false := beq_eq_false_iff_ne.mpr hbj
              rw [hb, Bool.and_false]
            rw [hfp, Bool.false_or]
            have hd : decide (j ≠ bitIdx W p) = true :=
              decide_eq_true (fun h => hbj h.symm)
            rw [hd, Bool.and_true]
        · have h0 : m.getD n 0 = 0 := List.getD_eq_default _ _ hn
          have hset : (packStep W q m p).getD n 0 = 0 := by
            rw [packStep, if_pos hq]
            exact List.getD_eq_default _ _ (by rw [List.length_set]; exact hn)
          rw [hset, h0]
          simp
      · have hfp : (decide (q.getD p 0 < 128) &&
            (byteIdx W p == n) && (bitIdx W p == j)) = false := by
          have hb : (byteIdx W p == n) = false := beq_eq_false_iff_ne.mpr hbn
          rw [hb, Bool.and_false, Bool.false_and]
        have hset : (packStep W q m p).getD n 0 = m.getD n 0 := by
          rw [packStep, if_pos hq]
          exact getD_set_of_ne _ _ _ _ _ hbn
        rw [hset, hfp, Bool.false_or]
    · have hfp : (decide (q.getD p 0 < 128) &&
          (byteIdx W p == n) && (bitIdx W p == j)) = false := by
        rw [decide_eq_false hq, Bool.false_and, Bool.false_and]
      have hset : packStep W q m p = m := by rw [packStep, if_neg hq]
      rw [hset, hfp, Bool.false_or]

theorem euclid_unique (s a b c d : Nat) (hb : b < s) (hd : d < s)
    (h : a * s + b = c * s + d) : a = c ∧ b = d := by
  have hs : 0 < s := by omega
  have ha : a = c := by
    have h1 : (b + a * s) / s = a := by
      rw [Nat.add_mul_div_right _ _ hs, Nat.div_eq_of_lt hb, Nat.zero_add]
    have h2 : (d + c * s) / s = c := by
      rw [Nat.add_mul_div_right _ _ hs, Nat.div_eq_of_lt hd, Nat.zero_add]
    rw [← h1, ← h2]
    congr 1
    omega
  subst ha
  exact ⟨rfl, by omega⟩

theorem flat_div (W x y : Nat) (hW : 0 < W) (hx : x < W) : (y * W + x) / W = y := by
  rw [Nat.mul_comm, Nat.mul_add_div hW, Nat.div_eq_of_lt hx, Nat.add_zero]

theorem flat_mod (W x y : Nat) (hx : x < W) : (y * W + x) % W = x := by
  rw [Nat.mul_comm, Nat.mul_add_mod, Nat.mod_eq_of_lt hx]

theorem target_unique (W x y i : Nat) (hx : x < W)
    (hbyte : byteIdx W i = y * ((W + 7) / 8) + x / 8)
    (hbit : bitIdx W i = 7 - x % 8) : i = y * W + x := by
  have hW : 0 < W := by omega
  obtain ⟨a, b, hi, ha⟩ : ∃ a b, i = a + W * b ∧ a < W :=
    ⟨i % W, i / W, (Nat.mod_add_div i W).symm, Nat.mod_lt _ hW⟩
  have hmod : i % W = a := by
    rw [hi, Nat.add_mul_mod_self_left, Nat.mod_eq_of_lt ha]
  have hdiv : i / W = b := by
    rw [hi, Nat.mul_comm W b, Nat.add_mul_div_right _ _ hW, Nat.div_eq_of_lt ha,
      Nat.zero_add]
  rw [byteIdx, hmod, hdiv] at hbyte
  rw [bitIdx, hmod] at hbit
  have h1 : a / 8 < (W + 7) / 8 := by omega
  have h2 : x / 8 < (W + 7) / 8 := by omega
  obtain ⟨hby, hbx⟩ := euclid_unique ((W + 7) / 8) b (a / 8) y (x / 8) h1 h2 hbyte
  have hax : a = x := by omega
  rw [hi, hax, hby, Nat.mul_comm]
  exact Nat.add_comm x (y * W)

theorem no_trailing_target (W y j i : Nat) (hW8 : W % 8 ≠ 0) (hj : j < 8 - W % 8)
    (hbyte : byteIdx W i = y * ((W + 7) / 8) + ((W + 7) / 8 - 1))
    (hbit : bitIdx W i = j) : False := by
  have hW : 0 < W := by omega
  obtain ⟨a, b, hi, ha⟩ : ∃ a b, i = a + W * b ∧ a < W :=
    ⟨i % W, i / W, (Nat.mod_add_div i W).symm, Nat.mod_lt _ hW⟩
  have hmod : i % W = a := by
    rw [hi, Nat.add_mul_mod_self_left, Nat.mod_eq_of_lt ha]
  have hdiv : i / W = b := by
    rw [hi, Nat.mul_comm W b, Nat.add_mul_div_right _ _ hW, Nat.div_eq_of_lt ha,
      Nat.zero_add]
  rw [byteIdx, hmod, hdiv] at hbyte
  rw [bitIdx, hmod] at hbit
  have h1 : a / 8 < (W + 7) / 8 := by omega
  have h2 : (W + 7) / 8 - 1 < (W + 7) / 8 := by omega
  obtain ⟨hby, hbx⟩ := euclid_unique ((W + 7) / 8) b (a / 8) y ((W + 7) / 8 - 1) h1 h2 hbyte
  omega

/-- C3: the monochrome packer produces a buffer of `ceil(W/8) * H` bytes
in which the bit at position `7 - x % 8` of byte `y * ceil(W/8) + x / 8`
is 0 exactly when the quantized value at `(x, y)` is below 128, and (for
widths that are not a multiple of 8) the trailing bits of the last byte
of every row keep their default value 1. -/
theorem C3_pack_bits (W H : Nat) (q : List Int) (_hq : q.length = W * H) :
    (packMono W H q).length = ((W + 7) / 8) * H ∧
    (∀ x y, x < W → y < H →
      ((((packMono W H q).getD (y * ((W + 7) / 8) + x / 8) 0).testBit (7 - x % 8) = false)
        ↔ q.getD (y * W + x) 0 < 128)) ∧
    (W % 8 ≠ 0 → ∀ y j, y < H → j < 8 - W % 8 →
      ((packMono W H q).getD (y * ((W + 7) / 8) + ((W + 7) / 8 - 1)) 0).testBit j
        = true) := by
  have h255 : ∀ j2 < 8, Nat.testBit 255 j2 = true := by decide
  refine ⟨by rw [packMono, pack_fold_length, List.length_replicate], ?_, ?_⟩
  · intro x y hx hy
    have hW : 0 < W := by omega
    have hj8 : 7 - x % 8 < 8 := by omega
    have hn : y * ((W + 7) / 8) + x / 8 < ((W + 7) / 8) * H := by
      have hxs : x / 8 < (W + 7) / 8 := by omega
      calc y * ((W + 7) / 8) + x / 8 < (y + 1) * ((W + 7) / 8) := by
            rw [Nat.add_mul, Nat.one_mul]; omega
        _ ≤ H * ((W + 7) / 8) := Nat.mul_le_mul_right _ (by omega)
        _ = ((W + 7) / 8) * H := Nat.mul_comm _ _
    rw [packMono, pack_fold_testBit _ _ _ _ _ _ hj8,
      getD_replicate_of_lt _ _ _ _ hn, h255 _ hj8, Bool.true_and,
      Bool.not_eq_false', List.any_eq_true]
    constructor
    · rintro ⟨i, hmem, hf⟩
      simp only [Bool.and_eq_true, decide_eq_true_eq, beq_iff_eq] at hf
      obtain ⟨⟨hqi, hbn⟩, hbj⟩ := hf
      rwa [target_unique W x y i hx hbn hbj] at hqi
    · intro hlt
      refine ⟨y * W + x, List.mem_range.mpr ?_, ?_⟩
      · calc y * W + x < (y + 1) * W := by rw [Nat.add_mul, Nat.one_mul]; omega
          _ ≤ H * W := Nat.mul_le_mul_right _ (by omega)
          _ = W * H := Nat.mul_comm _ _
      · have hd : (y * W + x) / W = y := flat_div W x y hW hx
        have hm : (y * W + x) % W = x := flat_mod W x y hx
        simp only [Bool.and_eq_true, decide_eq_true_eq, beq_iff_eq]
        exact ⟨⟨hlt, by rw [byteIdx, hd, hm]⟩, by rw [bitIdx, hm]⟩
  · intro hW8 y j hy hj
    have hs : 0 < (W + 7) / 8 := by omega
    have hj8 : j < 8 := by omega
    have hn : y * ((W + 7) / 8) + ((W + 7) / 8 - 1) < ((W + 7) / 8) * H := by
      calc y * ((W + 7) / 8) + ((W + 7) / 8 - 1) < (y + 1) * ((W + 7) / 8) := by
            rw [Nat.add_mul, Nat.one_mul]; omega
        _ ≤ H * ((W + 7) / 8) := Nat.mul_le_mul_right _ (by omega)
        _ = ((W + 7) / 8) * H := Nat.mul_comm _ _
    rw [packMono, pack_fold_testBit _ _ _ _ _ _ hj8,
      getD_replicate_of_lt _ _ _ _ hn, h255 _ hj8, Bool.true_and,
      Bool.not_eq_true', List.any_eq_false]
    intro i _
    simp only [Bool.and_eq_true, decide_eq_true_eq, beq_iff_eq, not_and]
    intro hx hbn
    exact no_trailing_target W y j i hW8 hj hx.2 hbn

/-- Witness for C3 on a 3x1 field: pixel (0,0) is black so bit 7 of byte
0 is cleared, and trailing bit 0 of the row's last byte stays 1. -/
theorem C3_witness :
    (((packMono 3 1 [0, 255, 0]).getD 0 0).testBit 7 = false ↔
      ([0, 255, 0] : List Int).getD 0 0 < 128) ∧
    ((packMono 3 1 [0, 255, 0]).getD 0 0).testBit 0 = true :=
  ⟨(C3_pack_bits 3 1 [0, 255, 0] (by decide)).2.1 0 0 (by decide) (by decide),
    (C3_pack_bits 3 1 [0, 255, 0] (by decide)).2.2 (by decide) 0 0 (by decide) (by decide)⟩

end RW402B

namespace RW402B

/-! ### C8: the mirror transform -/

theorem swapIdx_length (bm : List Nat) (i j : Nat) :
    (swapIdx bm i j).length = bm.length := by
  simp [swapIdx]

theorem swap_fold_length (W y : Nat) (l : List Nat) :
    ∀ bm : List Nat,
      ((l.foldl (fun b x => swapIdx b (y * W + x) (y * W + (W - 1 - x))) bm).length
        = bm.length) := by
  induction l with
  | nil => intro bm; rfl
  | cons a l ih => intro bm; rw [List.foldl_cons, ih, swapIdx_length]

theorem mirrorRowFold_length (W y : Nat) (bm : List Nat) :
    (mirrorRowFold W y bm).length = bm.length :=
  swap_fold_length W y (List.range (W / 2)) bm

theorem mirror_length (W H : Nat) (bm : List Nat) :
    (mirror W H bm).length = bm.length := by
  unfold mirror
  induction (List.range H) generalizing bm with
  | nil => rfl
  | cons y l ih => rw [List.foldl_cons, ih, mirrorRowFold_length]

theorem swapIdx_getD (bm : List Nat) (i j p : Nat)
    (hi : i < bm.length) (hj : j < bm.length) :
    (swapIdx bm i j).getD p 0 =
      if p = i ∧ i ≠ j then bm.getD j 0
      else if p = j then bm.getD i 0
      else bm.getD p 0 := by
  unfold swapIdx
  dsimp only
  by_cases hpj : p = j
  · subst hpj
    rw [getD_set_of_lt _ _ _ _ (by rw [List.length_set]; exact hj),
      if_neg (fun h => h.2 h.1.symm), if_pos rfl]
  · rw [getD_set_of_ne _ _ _ _ _ (fun h => hpj h.symm)]
    by_cases hpi : p = i
    · subst hpi
      rw [getD_set_of_lt _ _ _ _ hi, if_pos ⟨rfl, fun h => hpj h⟩]
    · rw [getD_set_of_ne _ _ _ _ _ (fun h => hpi h.symm),
        if_neg (fun h => hpi h.1), if_neg hpj]

/-- State of the inner mirror loop after the first `k` swaps: the first
`k` and last `k` columns of row `y` hold their mirrored originals, the
rest of the buffer is untouched. -/
theorem mirrorRow_invariant (W y : Nat) (bm : List Nat)
    (hL : y * W + W ≤ bm.length) :
    ∀ k, k ≤ W / 2 → ∀ p,
      (((List.range k).foldl
          (fun b x => swapIdx b (y * W + x) (y * W + (W - 1 - x))) bm).getD p 0 =
        if y * W ≤ p ∧ p < y * W + W ∧ (p - y * W < k ∨ W - k ≤ p - y * W) then
          bm.getD (y * W + (W - 1 - (p - y * W))) 0
        else bm.getD p 0) := by
  intro k
  induction k with
  | zero =>
    intro _ p
    have hcond : ¬(y * W ≤ p ∧ p < y * W + W ∧ (p - y * W < 0 ∨ W - 0 ≤ p - y * W)) := by
      rintro ⟨h1, h2, h3 | h3⟩ <;> omega
    rw [if_neg hcond]
    rfl
  | succ k ih =>
    intro hk p
    have hk2 : k ≤ W / 2 := by omega
    have hr : List.range (k + 1) = List.range k ++ [k] := by simp [List.range_succ]
    rw [hr, List.foldl_append, List.foldl_cons, List.foldl_nil]
    have hlen : ((List.range k).foldl
        (fun b x => swapIdx b (y * W + x) (y * W + (W - 1 - x))) bm).length
        = bm.length := swap_fold_length W y (List.range k) bm
    rw [swapIdx_getD _ _ _ _ (by omega) (by omega)]
    by_cases hpa : p = y * W + k ∧ y * W + k ≠ y * W + (W - 1 - k)
    · rw [if_pos hpa]
      obtain ⟨hp, _⟩ := hpa
      rw [ih hk2 (y * W + (W - 1 - k))]
      have hcold : ¬(y * W ≤ y * W + (W - 1 - k) ∧ y * W + (W - 1 - k) < y * W + W ∧
          ((y * W + (W - 1 - k)) - y * W < k ∨ W - k ≤ (y * W + (W - 1 - k)) - y * W)) := by
        rintro ⟨h1, h2, h3 | h3⟩ <;> omega
      rw [if_neg hcold]
      have hcnew : y * W ≤ p ∧ p < y * W + W ∧ (p - y * W < k + 1 ∨ W - (k + 1) ≤ p - y * W) := by
        refine ⟨by omega, by omega, Or.inl (by omega)⟩
      rw [if_pos hcnew]
      congr 2
      omega
    · rw [if_neg hpa]
      by_cases hpb : p = y * W + (W - 1 - k)
      · rw [if_pos hpb]
        rw [ih hk2 (y * W + k)]
        have hcold : ¬(y * W ≤ y * W + k ∧ y * W + k < y * W + W ∧
            ((y * W + k) - y * W < k ∨ W - k ≤ (y * W + k) - y * W)) := by
          rintro ⟨h1, h2, h3 | h3⟩ <;> omega
        rw [if_neg hcold]
        have hcnew : y * W ≤ p ∧ p < y * W + W ∧
            (p - y * W < k + 1 ∨ W - (k + 1) ≤ p - y * W) := by
          refine ⟨by omega, by omega, Or.inr (by omega)⟩
        rw [if_pos hcnew]
        congr 2
        omega
      · rw [if_neg hpb, ih hk2 p]
        have hiff : (y * W ≤ p ∧ p < y * W + W ∧ (p - y * W < k ∨ W - k ≤ p - y * W)) ↔
            (y * W ≤ p ∧ p < y * W + W ∧ (p - y * W < k + 1 ∨ W - (k + 1) ≤ p - y * W)) := by
          constructor
          · rintro ⟨h1, h2, h3 | h3⟩
            · exact ⟨h1, h2, Or.inl (by omega)⟩
            · exact ⟨h1, h2, Or.inr (by omega)⟩
          · rintro ⟨h1, h2, h3 | h3⟩
            · refine ⟨h1, h2, Or.inl ?_⟩
              omega
            · refine ⟨h1, h2, Or.inr ?_⟩
              omega
        by_cases hc : y * W ≤ p ∧ p < y * W + W ∧ (p - y * W < k ∨ W - k ≤ p - y * W)
        · rw [if_pos hc, if_pos (hiff.mp hc)]
        · rw [if_neg hc, if_neg (fun h => hc (hiff.mpr h))]

end RW402B

namespace RW402B

theorem row_cond_iff (W r q : Nat) (hW : 0 < W) :
    (r * W ≤ q ∧ q < r * W + W) ↔ q / W = r := by
  constructor
  · rintro ⟨h1, h2⟩
    have hq : r * W + (q - r * W) = q := by omega
    have hd : q - r * W < W := by omega
    rw [← hq, flat_div W (q - r * W) r hW hd]
  · intro hdiv
    have hdm := Nat.div_add_mod q W
    have hmod : q % W < W := Nat.mod_lt _ hW
    have hcomm : W * r = r * W := Nat.mul_comm W r
    rw [hdiv] at hdm
    omega

theorem mirrorRowFold_getD (W y : Nat) (bm : List Nat)
    (hL : y * W + W ≤ bm.length) (p : Nat) :
    (mirrorRowFold W y bm).getD p 0 =
      if y * W ≤ p ∧ p < y * W + W then bm.getD (y * W + (W - 1 - (p - y * W))) 0
      else bm.getD p 0 := by
  have h := mirrorRow_invariant W y bm hL (W / 2) (Nat.le_refl _) p
  rw [mirrorRowFold, h]
  by_cases hrow : y * W ≤ p ∧ p < y * W + W
  · rw [if_pos hrow]
    by_cases hmid : p - y * W < W / 2 ∨ W - W / 2 ≤ p - y * W
    · rw [if_pos ⟨hrow.1, hrow.2, hmid⟩]
    · rw [if_neg (fun h2 => hmid h2.2.2)]
      have hidx : y * W + (W - 1 - (p - y * W)) = p := by omega
      rw [hidx]
  · rw [if_neg (fun h2 => hrow ⟨h2.1, h2.2.1⟩), if_neg hrow]

theorem mirror_fold_getD (W H : Nat) (hW : 0 < W) :
    ∀ (l : List Nat), l.Nodup → (∀ y ∈ l, y < H) →
      ∀ (bm : List Nat), bm.length = W * H → ∀ p, p < W * H →
      ((l.foldl (fun b y => mirrorRowFold W y b) bm).getD p 0 =
        if p / W ∈ l then bm.getD ((p / W) * W + (W - 1 - p % W)) 0
        else bm.getD p 0) := by
  intro l
  induction l with
  | nil =>
    intro _ _ bm _ p _
    rw [List.foldl_nil, if_neg (List.not_mem_nil _)]
  | cons r l ih =>
    intro hnd hlt bm hlen p hp
    rw [List.foldl_cons]
    have hr : r < H := hlt r (List.mem_cons_self r l)
    have hrowL : r * W + W ≤ bm.length := by
      have h1 : (r + 1) * W ≤ H * W := Nat.mul_le_mul_right _ (by omega)
      have h2 : (r + 1) * W = r * W + W := by ring
      have h3 : H * W = W * H := Nat.mul_comm _ _
      omega
    have hlen2 : (mirrorRowFold W r bm).length = W * H := by
      rw [mirrorRowFold_length, hlen]
    rw [ih hnd.of_cons (fun y hy => hlt y (List.mem_cons_of_mem r hy))
      (mirrorRowFold W r bm) hlen2 p hp]
    have hpmod : p % W < W := Nat.mod_lt _ hW
    by_cases hin : p / W ∈ l
    · -- row of p is handled later in the fold; the row-r pass leaves both
      -- p and its mirrored partner untouched
      have hne : p / W ≠ r := fun h => (List.nodup_cons.mp hnd).1 (h ▸ hin)
      rw [if_pos hin, if_pos (List.mem_cons_of_mem r hin)]
      rw [mirrorRowFold_getD W r _ hrowL]
      have hq : ((p / W) * W + (W - 1 - p % W)) / W = p / W :=
        flat_div W _ _ hW (by omega)
      rw [if_neg (fun hc => hne (by rw [← hq, (row_cond_iff W r _ hW).mp hc]))]
    · rw [if_neg hin]
      by_cases hpr : p / W = r
      · rw [if_pos (by rw [hpr]; exact List.mem_cons_self r l)]
        rw [mirrorRowFold_getD W r _ hrowL]
        rw [if_pos ((row_cond_iff W r p hW).mpr hpr)]
        have hdm := Nat.div_add_mod p W
        have hcomm : W * (p / W) = (p / W) * W := Nat.mul_comm _ _
        have hidx : r * W + (W - 1 - (p - r * W)) = (p / W) * W + (W - 1 - p % W) := by
          rw [← hpr]
          omega
        rw [hidx]
      · rw [if_neg (fun hc => (List.mem_cons.mp hc).elim hpr hin)]
        rw [mirrorRowFold_getD W r _ hrowL]
        rw [if_neg (fun hc => hpr ((row_cond_iff W r p hW).mp hc))]

/-- C8: the mirror transform keeps the buffer size, maps the value at
column `W - 1 - x` of each row to column `x` (reversing every row), and
is an involution. -/
theorem C8_mirror_involution (W H : Nat) (bm : List Nat) (hlen : bm.length = W * H) :
    (mirror W H bm).length = bm.length ∧
    (∀ x y, x < W → y < H →
      (mirror W H bm).getD (y * W + x) 0 = bm.getD (y * W + (W - 1 - x)) 0) ∧
    mirror W H (mirror W H bm) = bm := by
  rcases Nat.eq_zero_or_pos W with hW0 | hW
  · subst hW0
    have hnil : bm = [] := List.eq_nil_of_length_eq_zero (by simpa using hlen)
    subst hnil
    have hfix : mirror 0 H [] = [] := by
      have : (mirror 0 H []).length = 0 := by rw [mirror_length]; rfl
      exact List.eq_nil_of_length_eq_zero this
    exact ⟨by rw [hfix], fun x y hx _ => absurd hx (by omega), by rw [hfix, hfix]⟩
  · have hpoint : ∀ x y, x < W → y < H →
        (mirror W H bm).getD (y * W + x) 0 = bm.getD (y * W + (W - 1 - x)) 0 := by
      intro x y hx hy
      have hp : y * W + x < W * H := by
        have h1 : (y + 1) * W ≤ H * W := Nat.mul_le_mul_right _ (by omega)
        have h2 : (y + 1) * W = y * W + W := by ring
        have h3 : H * W = W * H := Nat.mul_comm _ _
        omega
      have h := mirror_fold_getD W H hW (List.range H) (List.nodup_range H)
        (fun y2 hy2 => List.mem_range.mp hy2) bm hlen (y * W + x) hp
      rw [mirror, h, flat_div W x y hW hx, flat_mod W x y hx,
        if_pos (List.mem_range.mpr hy)]
    refine ⟨mirror_length W H bm, hpoint, ?_⟩
    have hlen1 : (mirror W H bm).length = W * H := by rw [mirror_length, hlen]
    have hpoint2 : ∀ x y, x < W → y < H →
        (mirror W H (mirror W H bm)).getD (y * W + x) 0 = bm.getD (y * W + x) 0 := by
      intro x y hx hy
      have hx2 : W - 1 - x < W := by omega
      have h1 : (mirror W H (mirror W H bm)).getD (y * W + x) 0 =
          (mirror W H bm).getD (y * W + (W - 1 - x)) 0 := by
        have hp2 : ∀ x2 y2, x2 < W → y2 < H →
            (mirror W H (mirror W H bm)).getD (y2 * W + x2) 0 =
              (mirror W H bm).getD (y2 * W + (W - 1 - x2)) 0 := by
          intro x2 y2 hx2b hy2
          have hpz : y2 * W + x2 < W * H := by
            have ha : (y2 + 1) * W ≤ H * W := Nat.mul_le_mul_right _ (by omega)
            have hb : (y2 + 1) * W = y2 * W + W := by ring
            have hc : H * W = W * H := Nat.mul_comm _ _
            omega
          have h := mirror_fold_getD W H hW (List.range H) (List.nodup_range H)
            (fun y3 hy3 => List.mem_range.mp hy3) (mirror W H bm) hlen1
            (y2 * W + x2) hpz
          rw [mirror, h, flat_div W x2 y2 hW hx2b, flat_mod W x2 y2 hx2b,
            if_pos (List.mem_range.mpr hy2)]
        exact hp2 x y hx hy
      rw [h1, hpoint (W - 1 - x) y hx2 hy]
      have hxx : W - 1 - (W - 1 - x) = x := by omega
      rw [hxx]
    have hlen3 : (mirror W H (mirror W H bm)).length = bm.length := by
      rw [mirror_length, mirror_length]
    apply List.ext_getElem hlen3
    intro n h1 h2
    have hn : n < W * H := by omega
    have hx : n % W < W := Nat.mod_lt _ hW
    have hy : n / W < H := by
      have hdm := Nat.div_add_mod n W
      have hcomm : W * (n / W) = (n / W) * W := Nat.mul_comm _ _
      rcases Nat.lt_or_ge (n / W) H with h | h
      · exact h
      · exfalso
        have : H * W ≤ (n / W) * W := Nat.mul_le_mul_right _ h
        have h3 : H * W = W * H := Nat.mul_comm _ _
        omega
    have hsplit : n = (n / W) * W + n % W := by
      have hdm := Nat.div_add_mod n W
      have hcomm : W * (n / W) = (n / W) * W := Nat.mul_comm _ _
      omega
    have h := hpoint2 (n % W) (n / W) hx hy
    rw [← hsplit] at h
    have hg1 : (mirror W H (mirror W H bm))[n] =
        (mirror W H (mirror W H bm)).getD n 0 := by
      rw [List.getD_eq_getElem?_getD, List.getElem?_eq_getElem h1]
      rfl
    have hg2 : bm[n] = bm.getD n 0 := by
      rw [List.getD_eq_getElem?_getD, List.getElem?_eq_getElem h2]
      rfl
    rw [hg1, hg2, h]

/-- Witness for C8 on the 3x1 buffer `[1, 2, 3]`. -/
theorem C8_witness :
    (mirror 3 1 [1, 2, 3]).getD (0 * 3 + 0) 0 = ([1, 2, 3] : List Nat).getD (0 * 3 + 2) 0 ∧
    mirror 3 1 (mirror 3 1 [1, 2, 3]) = [1, 2, 3] :=
  ⟨(C8_mirror_involution 3 1 [1, 2, 3] (by decide)).2.1 0 0 (by decide) (by decide),
    (C8_mirror_involution 3 1 [1, 2, 3] (by decide)).2.2⟩

end RW402B

namespace RW402B

/-! ### C10: print mode does not influence the packed output -/

/-- C10: `convert_gray_to_mono` never reads its `print_mode` argument, so
two runs differing only in the PrintMode option produce bit-identical
monochrome buffers. -/
theorem C10_print_mode_independent (W H : Nat) (gray : List Nat) (pm1 pm2 : Int) :
    convert_gray_to_mono W H gray pm1 = convert_gray_to_mono W H gray pm2 := rfl

/-! ### C6: degenerate pages are skipped -/

/-- C6: a page header with zero width, height or bytes-per-row is skipped
entirely — no pixel read, no allocation, no commands, no abort — and the
processor proceeds with the remaining pages. -/
theorem C6_degenerate_page_skip (cfg : Config) (p : PageRec) (rest : List PageRec)
    (h : p.cupsWidth = 0 ∨ p.cupsHeight = 0 ∨ p.cupsBytesPerLine = 0) :
    process_raster_page cfg (p :: rest) = process_raster_page cfg rest := by
  simp only [process_raster_page]
  rw [if_pos h]

/-- Witness for C6 on a width-0 header. -/
theorem C6_witness :
    process_raster_page (initialConfig 0 1 "" "")
        [⟨0, 1, 1, true, true, true, true, [], []⟩] =
      process_raster_page (initialConfig 0 1 "" "") [] :=
  C6_degenerate_page_skip (initialConfig 0 1 "" "")
    ⟨0, 1, 1, true, true, true, true, [], []⟩ [] (Or.inl rfl)

/-! ### C7: a short pixel read aborts the whole job -/

/-- C7: when the pixel read comes up short on a non-degenerate page, the
raster buffer is freed, the diagnostic is written, and processing stops:
no commands are emitted for the page and no further pages are read. -/
theorem C7_short_read_aborts (cfg : Config) (p : PageRec) (rest : List PageRec)
    (hnd : ¬(p.cupsWidth = 0 ∨ p.cupsHeight = 0 ∨ p.cupsBytesPerLine = 0))
    (hra : p.rasterAllocOk = true) (hpr : p.pixelsReadOk = false) :
    process_raster_page cfg (p :: rest) =
      [Ev.freeRaster, Ev.errMsg "ERROR: Failed to read raster pixels."] := by
  simp only [process_raster_page]
  rw [if_neg hnd, if_neg (by simp [hra]), if_pos hpr]

/-- Witness for C7 on a concrete 1x1 page whose read fails. -/
theorem C7_witness :
    process_raster_page (initialConfig 0 1 "" "")
        [⟨1, 1, 1, true, false, true, true, [0], []⟩,
         ⟨1, 1, 1, true, true, true, true, [0], []⟩] =
      [Ev.freeRaster, Ev.errMsg "ERROR: Failed to read raster pixels."] :=
  C7_short_read_aborts (initialConfig 0 1 "" "")
    ⟨1, 1, 1, true, false, true, true, [0], []⟩
    [⟨1, 1, 1, true, true, true, true, [0], []⟩] (by decide) rfl rfl

/-! ### C4: exit codes -/

/-- C4 counterexample: with a usable argument count but a failed
`cupsRasterOpen`, the C code writes the diagnostic and then falls through
to `return 0` — the exit code is 0, not the failure code 1 the claim
requires. -/
theorem C4_counterexample :
    (main_model 6 true false (initialConfig 0 1 "" "") []).1 = 0 ∧
    (main_model 6 true false (initialConfig 0 1 "" "") []).2 =
      [Ev.errMsg "ERROR: Could not open raster stream."] ∧
    (main_model 6 true false (initialConfig 0 1 "" "") []).1 ≠ 1 := by
  refine ⟨rfl, rfl, by decide⟩

/-- C4 (amended): the exit code is 1 exactly for an unusable argument
count or an unopenable named input file; a raster-stream initialization
failure writes its diagnostic but the process still exits 0. -/
theorem C4_exit_codes (argc : Nat) (open_ok raster_ok : Bool) (cfg : Config)
    (pages : List PageRec) :
    ((main_model argc open_ok raster_ok cfg pages).1 = 1 ↔
      (argc < 6 ∨ 7 < argc ∨ (argc = 7 ∧ open_ok = false))) ∧
    (¬(argc < 6 ∨ 7 < argc) → (argc = 7 → open_ok = true) → raster_ok = false →
      (main_model argc open_ok raster_ok cfg pages).1 = 0 ∧
      (main_model argc open_ok raster_ok cfg pages).2 =
        [Ev.errMsg "ERROR: Could not open raster stream."]) := by
  constructor
  · unfold main_model
    split_ifs with h1 h2 h3
    · exact ⟨fun _ => h1.elim Or.inl (fun h => Or.inr (Or.inl h)), fun _ => rfl⟩
    · exact ⟨fun _ => Or.inr (Or.inr h2), fun _ => rfl⟩
    · refine ⟨fun h => absurd h (by decide), ?_⟩
      rintro (h | h | h)
      · exact absurd (Or.inl h) h1
      · exact absurd (Or.inr h) h1
      · exact absurd h h2
    · refine ⟨fun h => absurd h (by decide), ?_⟩
      rintro (h | h | h)
      · exact absurd (Or.inl h) h1
      · exact absurd (Or.inr h) h1
      · exact absurd h h2
  · intro hargc hopen hro
    unfold main_model
    rw [if_neg hargc,
      if_neg (by rintro ⟨ha, hb⟩; rw [hopen ha] at hb; exact Bool.noConfusion hb),
      if_neg (by rw [hro]; exact Bool.false_ne_true)]
    exact ⟨rfl, rfl⟩

/-- Witness for C4 (amended) at a concrete failed raster open. -/
theorem C4_witness :
    (main_model 6 true false (initialConfig 0 1 "" "") [⟨0, 0, 0, true, true, true,
      true, [], []⟩]).1 = 0 ∧
    (main_model 6 true false (initialConfig 0 1 "" "") [⟨0, 0, 0, true, true, true,
      true, [], []⟩]).2 = [Ev.errMsg "ERROR: Could not open raster stream."] :=
  (C4_exit_codes 6 true false (initialConfig 0 1 "" "")
      [⟨0, 0, 0, true, true, true, true, [], []⟩]).2
    (by decide) (fun h => absurd h (by decide)) rfl

/-! ### C5: allocation failures -/

/-- C5: when the intensity-field allocation inside `convert_gray_to_mono`
fails, the job does NOT abort: the C function returns silently, the
driver emits the BITMAP command with the uninitialized monochrome buffer
contents (here `[171]`), no diagnostic is written, and the next page is
still processed.  This contradicts the spec's requirement that any
allocation failure aborts the whole job with a report. -/
theorem C5_field_alloc_failure :
    process_raster_page (initialConfig 0 1 "" "")
        [⟨1, 1, 1, true, true, true, false, [0], [171]⟩,
         ⟨1, 1, 1, true, true, true, true, [255], []⟩] =
      [Ev.emit (send_printer_commands [171] 1 1 (initialConfig 0 1 "" "")),
       Ev.freeRaster, Ev.freeMono,
       Ev.emit (send_printer_commands (convert_gray_to_mono 1 1 [255] 0) 1 1
         (initialConfig 0 1 "" "")),
       Ev.freeRaster, Ev.freeMono] ∧
    (∀ s, Ev.errMsg s ∉ process_raster_page (initialConfig 0 1 "" "")
        [⟨1, 1, 1, true, true, true, false, [0], [171]⟩,
         ⟨1, 1, 1, true, true, true, true, [255], []⟩]) := by
  have h1 : process_raster_page (initialConfig 0 1 "" "")
      [⟨1, 1, 1, true, true, true, false, [0], [171]⟩,
       ⟨1, 1, 1, true, true, true, true, [255], []⟩] =
      [Ev.emit (send_printer_commands [171] 1 1 (initialConfig 0 1 "" "")),
       Ev.freeRaster, Ev.freeMono,
       Ev.emit (send_printer_commands (convert_gray_to_mono 1 1 [255] 0) 1 1
         (initialConfig 0 1 "" "")),
       Ev.freeRaster, Ev.freeMono] := rfl
  refine ⟨h1, ?_⟩
  intro s hs
  rw [h1] at hs
  simp at hs

/-! ### C1: command framing -/

/-- C1: the command emitter always writes the CRLF-terminated text
commands in the fixed order SIZE, GAP, DIRECTION, REFERENCE, DENSITY,
SPEED, CLS, BITMAP — the packed bytes follow the BITMAP command's
trailing comma with no delimiter, then a CRLF and `PRINT 1,<copies>` —
and for a 1x1 all-white page under the default configuration with page
50x30 mm the emitted bytes are exactly the literal lines of the claim
with the single packed byte 0xFF. -/
theorem C1_command_framing :
    (∀ (mono : List Nat) (wb h : Nat) (cfg : Config),
      send_printer_commands mono wb h cfg =
        bytesOfString ("SIZE " ++ toString cfg.page_width_mm ++ " mm," ++
            toString cfg.page_height_mm ++ " mm" ++ "\r\n") ++
        bytesOfString ("GAP " ++ toString cfg.gap_height ++ " mm," ++
            toString cfg.gap_offset ++ " mm" ++ "\r\n") ++
        bytesOfString ("DIRECTION 0,0" ++ "\r\n") ++
        bytesOfString ("REFERENCE " ++ toString cfg.horizontal_offset ++ "," ++
            toString cfg.vertical_offset ++ "\r\n") ++
        bytesOfString ("DENSITY " ++ toString cfg.darkness ++ "\r\n") ++
        bytesOfString ("SPEED " ++ toString cfg.speed ++ "\r\n") ++
        bytesOfString ("CLS" ++ "\r\n") ++
        bytesOfString ("BITMAP 0,0," ++ toString wb ++ "," ++ toString h ++ ",1,") ++
        mono.take (wb * h) ++
        bytesOfString "\r\n" ++
        bytesOfString ("PRINT 1," ++ toString cfg.copies ++ "\r\n")) ∧
    (∀ c : Int,
      process_raster_page
          { initialConfig 0 c "" "" with page_width_mm := 50, page_height_mm := 30 }
          [⟨1, 1, 1, true, true, true, true, [255], []⟩] =
        [Ev.emit (bytesOfString ("SIZE 50 mm,30 mm\r\nGAP 3 mm,0 mm\r\n" ++
            "DIRECTION 0,0\r\nREFERENCE 0,0\r\nDENSITY 12\r\nSPEED 4\r\nCLS\r\n" ++
            "BITMAP 0,0,1,1,1,") ++
          [255] ++ bytesOfString ("\r\nPRINT 1," ++ toString c ++ "\r\n")),
         Ev.freeRaster, Ev.freeMono]) := by
  constructor
  · intro mono wb h cfg
    simp only [send_printer_commands, bytesOfString, String.data_append,
      List.map_append, List.append_assoc, List.map_cons, List.map_nil,
      List.cons_append, List.nil_append]
  · intro c
    have h1 : process_raster_page
        { initialConfig 0 c "" "" with page_width_mm := 50, page_height_mm := 30 }
        [⟨1, 1, 1, true, true, true, true, [255], []⟩] =
        [Ev.emit (send_printer_commands [255] 1 1
          { initialConfig 0 c "" "" with page_width_mm := 50, page_height_mm := 30 }),
         Ev.freeRaster, Ev.freeMono] := rfl
    rw [h1]
    simp only [send_printer_commands, initialConfig]
    have hpre : bytesOfString ("SIZE " ++ toString (50 : Int) ++ " mm," ++
        toString (30 : Int) ++ " mm\r\n" ++ "GAP " ++ toString (3 : Int) ++ " mm," ++
        toString (0 : Int) ++ " mm\r\n" ++ "DIRECTION 0,0\r\n" ++ "REFERENCE " ++
        toString (0 : Int) ++ "," ++ toString (0 : Int) ++ "\r\n" ++ "DENSITY " ++
        toString (12 : Int) ++ "\r\n" ++ "SPEED " ++ toString (4 : Int) ++ "\r\n" ++
        "CLS\r\n" ++ "BITMAP 0,0," ++ toString (1 : Nat) ++ "," ++ toString (1 : Nat) ++
        ",1,") =
        bytesOfString ("SIZE 50 mm,30 mm\r\nGAP 3 mm,0 mm\r\n" ++
          "DIRECTION 0,0\r\nREFERENCE 0,0\r\nDENSITY 12\r\nSPEED 4\r\nCLS\r\n" ++
          "BITMAP 0,0,1,1,1,") := by decide
    rw [hpre]
    rfl

/-! ### C9: PageSize parsing -/

/-- C9 counterexample: the malformed PageSize value `w200h` does not
leave the page dimensions at their zero defaults — `sscanf` stores the
first `%d` conversion before the overall match fails, so the raw width
200 (in points, unconverted) persists in the configuration. -/
theorem C9_counterexample :
    parsePageSize ("w200h".data) 0 0 ≠ (0, 0) ∧
    parsePageSize ("w200h".data) 0 0 = (200, 0) := by
  exact ⟨by decide, by decide⟩

/-- C9 (amended): both `Custom.200x100` and `w200h100` yield 70x35 mm
(points divided by 2.835, truncated), and a PageSize value whose scan
fails before assigning any numeric field leaves the dimensions at their
zero defaults; a value that matches past its first number may set the
already-assigned fields (converted in the `Custom` form, raw points in
the `w` form). -/
theorem C9_pagesize_parsing :
    parsePageSize ("Custom.200x100".data) 0 0 = (70, 35) ∧
    parsePageSize ("w200h100".data) 0 0 = (70, 35) ∧
    (∀ cs : List Char, scanCustomFields cs = (none, none) →
      scanWHFields cs = (none, none) → parsePageSize cs 0 0 = (0, 0)) := by
  refine ⟨by decide, by decide, ?_⟩
  intro cs h1 h2
  unfold parsePageSize
  rw [h1, h2]
  split <;> simp [pts_to_mm]

/-- Witness for C9's universally quantified part at the unrecognized
value `foo`. -/
theorem C9_witness : parsePageSize ("foo".data) 0 0 = (0, 0) :=
  C9_pagesize_parsing.2.2 ("foo".data) (by decide) (by decide)
